import Mathlib

/-!
Shallow embedding of the feedback/ticket bot (`src/index.js`).

The persistent state is the JSON file `feedback.json`, modelled by `Store`:
a list of feedback records plus an allowance map (a JS object, modelled as an
association list from user id to integer).  Every operation in the source does
`loadDb` (read the file), mutates the in-memory object, and possibly calls
`saveDb` (write the file).  We model each operation as a function from the
persisted `Store` to its result together with the persisted `Store` after the
call and a `saved` flag recording whether `saveDb` was invoked; when the
operation does not save, the persisted store is unchanged (the in-memory
mutation is dropped, exactly as in the source where the next `loadDb` rereads
the file).
-/

/-- FeedbackRecord: the entry built in the modal-submit handler
(`src/index.js`, the `entry` object): userId, username, rating, comment,
platform, createdAt, and the nullable messageId/channelId of the log message. -/
structure FeedbackRecord where
  userId : String
  username : String
  rating : Int
  comment : String
  platform : String
  createdAt : String
  messageId : Option String
  channelId : Option String
deriving DecidableEq, Repr

/-- AllowanceMap: the JS object `db.allowances`, keyed by user id.
Keys are unique by construction of `setAllow`. -/
abbrev AllowMap := List (String × Int)

/-- Store: the parsed content of `feedback.json` after `loadDb` normalisation
(`feedback` always an array, `allowances` always an object). -/
structure Store where
  feedback : List FeedbackRecord
  allowances : AllowMap
deriving DecidableEq, Repr

def emptyStore : Store := { feedback := [], allowances := [] }

/-- Property lookup `db.allowances[userId]`: `none` models JS `undefined`. -/
def lookupAllow (m : AllowMap) (u : String) : Option Int :=
  (m.find? (fun p => p.1 = u)).map (fun p => p.2)

/-- Property assignment `db.allowances[userId] = n`: overwrite the existing
key in place, or append a new key. -/
def setAllow (m : AllowMap) (u : String) (n : Int) : AllowMap :=
  match m with
  | [] => [(u, n)]
  | (k, v) :: rest => if k = u then (k, n) :: rest else (k, v) :: setAllow rest u n

/-- JS `x || d` on an optional number: `undefined`, `0` are falsy. -/
def jsOrInt (x : Option Int) (d : Int) : Int :=
  match x with
  | none => d
  | some n => if n = 0 then d else n

/-- JS falsiness `!db.allowances[userId]` of an optional number. -/
def jsFalsyInt (x : Option Int) : Bool :=
  match x with
  | none => true
  | some n => decide (n = 0)

/-- Result of an allowance operation: the returned number, the persisted
store after the call, and whether `saveDb` was invoked. -/
structure AllowOpOut where
  ret : Int
  store : Store
  saved : Bool
deriving DecidableEq, Repr

/-- Embedding of `setAllowance` (src/index.js lines 61-66): assign and save.
The second component records that `saveDb` was called. -/
def setAllowanceOp (s : Store) (u : String) (n : Int) : Store × Bool :=
  ({ s with allowances := setAllow s.allowances u n }, true)

/-- Embedding of `getAllowance` (src/index.js lines 68-72):
`return db.allowances[userId] || 0`. -/
def getAllowance (s : Store) (u : String) : Int :=
  jsOrInt (lookupAllow s.allowances u) 0

/-- Embedding of `getAllowance` as a store operation: it never calls `saveDb`,
so the persisted store is unchanged and `saved` is `false`. -/
def getAllowanceOp (s : Store) (u : String) : AllowOpOut :=
  { ret := getAllowance s u, store := s, saved := false }

/-- Embedding of `decrementAllowance` (src/index.js lines 74-84): normalise a
falsy entry to 0, and only when the entry is positive decrement it and save;
the return value is the in-memory entry after the attempt.  When no save
happens the persisted store is the original one. -/
def decrementAllowance (s : Store) (u : String) : AllowOpOut :=
  let m0 := if jsFalsyInt (lookupAllow s.allowances u)
            then setAllow s.allowances u 0 else s.allowances
  let cur := (lookupAllow m0 u).getD 0
  if 0 < cur then
    { ret := cur - 1
      store := { s with allowances := setAllow m0 u (cur - 1) }
      saved := true }
  else
    { ret := cur, store := s, saved := false }

/-- Embedding of `addFeedback` (src/index.js lines 42-46): push and save. -/
def addFeedback (s : Store) (e : FeedbackRecord) : Store × Bool :=
  ({ s with feedback := s.feedback ++ [e] }, true)

/-- Embedding of `removeFeedbackByMessageId` (src/index.js lines 48-58):
filter out records whose `messageId` equals the given id; save only when the
length changed (otherwise the file is left untouched). -/
def removeFeedbackByMessageId (s : Store) (messageId : String) : Store × Bool :=
  let fb := s.feedback.filter (fun f => decide (f.messageId ≠ some messageId))
  if fb.length ≠ s.feedback.length then ({ s with feedback := fb }, true)
  else (s, false)

/-! Basic lemmas about the allowance map. -/

theorem lookupAllow_setAllow_self (m : AllowMap) (u : String) (n : Int) :
    lookupAllow (setAllow m u n) u = some n := by
  induction m with
  | nil => simp [setAllow, lookupAllow]
  | cons p rest ih =>
    obtain ⟨k, v⟩ := p
    by_cases h : k = u
    · simp [setAllow, lookupAllow, h]
    · simp only [setAllow, if_neg h]
      simpa [lookupAllow, List.find?, h] using ih

theorem lookupAllow_setAllow_ne (m : AllowMap) (u v : String) (n : Int)
    (h : v ≠ u) : lookupAllow (setAllow m u n) v = lookupAllow m v := by
  have huv : ¬ (u = v) := fun hh => h hh.symm
  induction m with
  | nil => simp [setAllow, lookupAllow, List.find?, huv]
  | cons p rest ih =>
    obtain ⟨k, w⟩ := p
    by_cases hk : k = u
    · subst hk
      simp [setAllow, lookupAllow, List.find?, huv]
    · rw [show setAllow ((k, w) :: rest) u n = (k, w) :: setAllow rest u n from by
        simp [setAllow, hk]]
      by_cases hv : k = v
      · simp [lookupAllow, List.find?, hv]
      · simpa [lookupAllow, List.find?, hv] using ih

theorem mem_setAllow (m : AllowMap) (u : String) (n : Int) (q : String × Int)
    (hq : q ∈ setAllow m u n) : q = (u, n) ∨ q ∈ m := by
  induction m with
  | nil => simpa [setAllow] using hq
  | cons p rest ih =>
    obtain ⟨k, v⟩ := p
    by_cases h : k = u
    · subst h
      rcases (by simpa [setAllow] using hq : q = (k, n) ∨ q ∈ rest) with h1 | h1
      · exact Or.inl (by simpa using h1)
      · exact Or.inr (List.mem_cons_of_mem _ h1)
    · rcases (by simpa [setAllow, h] using hq : q = (k, v) ∨ q ∈ setAllow rest u n) with h1 | h1
      · exact Or.inr (by simp [h1])
      · rcases ih h1 with h2 | h2
        · exact Or.inl h2
        · exact Or.inr (List.mem_cons_of_mem _ h2)

theorem jsOrInt_some_zero (n : Int) : jsOrInt (some n) 0 = n := by
  by_cases h : n = 0 <;> simp [jsOrInt, h]

theorem getAllowance_eq_getD (s : Store) (u : String) :
    getAllowance s u = (lookupAllow s.allowances u).getD 0 := by
  cases h : lookupAllow s.allowances u with
  | none => simp [getAllowance, h, jsOrInt]
  | some n => simp [getAllowance, h, jsOrInt_some_zero]

theorem getAllowance_setAllow (s : Store) (m : AllowMap) (u : String) (n : Int) :
    getAllowance { s with allowances := setAllow m u n } u = n := by
  simp [getAllowance, lookupAllow_setAllow_self, jsOrInt_some_zero]

/-! Case analysis of `decrementAllowance`. -/

theorem decrementAllowance_of_lookup_none (s : Store) (u : String)
    (h : lookupAllow s.allowances u = none) :
    decrementAllowance s u = { ret := 0, store := s, saved := false } := by
  simp [decrementAllowance, h, jsFalsyInt, lookupAllow_setAllow_self]

theorem decrementAllowance_of_lookup_zero (s : Store) (u : String)
    (h : lookupAllow s.allowances u = some 0) :
    decrementAllowance s u = { ret := 0, store := s, saved := false } := by
  simp [decrementAllowance, h, jsFalsyInt, lookupAllow_setAllow_self]

theorem decrementAllowance_of_lookup_neg (s : Store) (u : String) (k : Int)
    (h : lookupAllow s.allowances u = some k) (hk : k < 0) :
    decrementAllowance s u = { ret := k, store := s, saved := false } := by
  have hk0 : ¬ (k = 0) := by omega
  have hlt : ¬ (0 < k) := by omega
  simp [decrementAllowance, h, jsFalsyInt, hk0, hlt]

theorem decrementAllowance_pos (s : Store) (u : String)
    (h : 0 < getAllowance s u) :
    decrementAllowance s u =
      { ret := getAllowance s u - 1
        store := { s with allowances := setAllow s.allowances u (getAllowance s u - 1) }
        saved := true } := by
  cases hl : lookupAllow s.allowances u with
  | none => simp [getAllowance, hl, jsOrInt] at h
  | some k =>
    have hg : getAllowance s u = k := by simp [getAllowance, hl, jsOrInt_some_zero]
    rw [hg] at h ⊢
    have hk0 : ¬ (k = 0) := by omega
    simp [decrementAllowance, hl, jsFalsyInt, hk0, h]

theorem getAllowance_of_lookup_eq_none (s : Store) (u : String)
    (h : lookupAllow s.allowances u = none) : getAllowance s u = 0 := by
  simp [getAllowance, h, jsOrInt]

theorem getAllowance_of_lookup_eq_some (s : Store) (u : String) (k : Int)
    (h : lookupAllow s.allowances u = some k) : getAllowance s u = k := by
  simp [getAllowance, h, jsOrInt_some_zero]

/-- C10: `decrementAllowance(u)` modifies at most the allowance entry of `u`:
the feedback list and every other user's allowance entry are unchanged, and
the returned value equals `u`'s allowance in the resulting (persisted) store,
so the remaining-count confirmation matches stored state. -/
theorem decrementAllowance_frame (s : Store) (u : String) :
    (decrementAllowance s u).store.feedback = s.feedback ∧
    (∀ v, v ≠ u → lookupAllow (decrementAllowance s u).store.allowances v
        = lookupAllow s.allowances v) ∧
    (decrementAllowance s u).ret = getAllowance (decrementAllowance s u).store u := by
  cases hl : lookupAllow s.allowances u with
  | none =>
    rw [decrementAllowance_of_lookup_none s u hl]
    exact ⟨rfl, fun v hv => rfl, (getAllowance_of_lookup_eq_none s u hl).symm⟩
  | some k =>
    rcases lt_trichotomy k 0 with hk | hk | hk
    · rw [decrementAllowance_of_lookup_neg s u k hl hk]
      exact ⟨rfl, fun v hv => rfl, (getAllowance_of_lookup_eq_some s u k hl).symm⟩
    · subst hk
      rw [decrementAllowance_of_lookup_zero s u hl]
      exact ⟨rfl, fun v hv => rfl, (getAllowance_of_lookup_eq_some s u 0 hl).symm⟩
    · have hg : 0 < getAllowance s u := by
        rw [getAllowance_of_lookup_eq_some s u k hl]; exact hk
      rw [decrementAllowance_pos s u hg]
      exact ⟨rfl, fun v hv => lookupAllow_setAllow_ne _ _ _ _ hv,
        (getAllowance_setAllow s s.allowances u (getAllowance s u - 1)).symm⟩

/-- Witness for C10: a concrete application at a two-user store, discharging
the hypothesis `v ≠ u` of the frame condition. -/
theorem decrementAllowance_frame_witness :
    ("v" : String) ≠ "u" ∧
    lookupAllow (decrementAllowance
        { feedback := [], allowances := [("u", 2), ("v", 5)] } "u").store.allowances "v"
      = lookupAllow ({ feedback := [], allowances := [("u", 2), ("v", 5)] } : Store).allowances "v" :=
  ⟨by decide,
   (decrementAllowance_frame { feedback := [], allowances := [("u", 2), ("v", 5)] } "u").2.1
     "v" (by decide)⟩

/-- C2 counterexample: the claim that every Allowance Gate call persists the
store is false — `getAllowance` never invokes `saveDb` (its body only reads),
so at the empty store the `saved` flag of the get operation is `false`. -/
theorem getAllowanceOp_never_saves :
    (getAllowanceOp emptyStore "u").saved = false := rfl

/-- C2 amended: `setAllowance` always persists the store; `getAllowance`
never persists; `decrementAllowance` persists exactly when the prior
allowance was positive (i.e. when a decrement actually happened). -/
theorem allowanceGate_persistence (s : Store) (u : String) (n : Int) :
    (setAllowanceOp s u n).2 = true ∧
    (getAllowanceOp s u).saved = false ∧
    ((decrementAllowance s u).saved = true ↔ 0 < getAllowance s u) := by
  refine ⟨rfl, rfl, ?_⟩
  cases hl : lookupAllow s.allowances u with
  | none =>
    rw [decrementAllowance_of_lookup_none s u hl]
    simp [getAllowance_of_lookup_eq_none s u hl]
  | some k =>
    rcases lt_trichotomy k 0 with hk | hk | hk
    · rw [decrementAllowance_of_lookup_neg s u k hl hk]
      simp [getAllowance_of_lookup_eq_some s u k hl]
      omega
    · subst hk
      rw [decrementAllowance_of_lookup_zero s u hl]
      simp [getAllowance_of_lookup_eq_some s u 0 hl]
    · have hg : 0 < getAllowance s u := by
        rw [getAllowance_of_lookup_eq_some s u k hl]; exact hk
      rw [decrementAllowance_pos s u hg]
      simpa using hg

/-! The allowance operations as a transition system (for the never-negative
invariant of C4). -/

/-- One call to the Allowance Gate: `grant` is `setAllowance` (reached via
the validated `!allow` command), `query` is `getAllowance`, `spend` is
`decrementAllowance`. -/
inductive AllowanceOp where
  | grant (u : String) (n : Int)
  | query (u : String)
  | spend (u : String)
deriving DecidableEq, Repr

/-- Persisted store after one allowance operation. -/
def applyAllowanceOp (s : Store) : AllowanceOp → Store
  | AllowanceOp.grant u n => (setAllowanceOp s u n).1
  | AllowanceOp.query u => (getAllowanceOp s u).store
  | AllowanceOp.spend u => (decrementAllowance s u).store

/-- Grants reached through the `!allow` command carry amount ≥ 1 (the
command rejects `isNaN(amount) || amount < 1` before calling `setAllowance`). -/
def validGrantB : AllowanceOp → Bool
  | AllowanceOp.grant _ n => decide (1 ≤ n)
  | _ => true

/-- All stored allowance entries are nonnegative. -/
def nonNegMap (m : AllowMap) : Bool := m.all (fun p => decide (0 ≤ p.2))

/-- All allowance entries of the store are nonnegative. -/
def nonNegAllowances (s : Store) : Bool := nonNegMap s.allowances

theorem nonNegMap_setAllow (m : AllowMap) (u : String) (n : Int)
    (hm : nonNegMap m = true) (hn : 0 ≤ n) : nonNegMap (setAllow m u n) = true := by
  simp only [nonNegMap, List.all_eq_true] at hm ⊢
  intro p hp
  rcases mem_setAllow m u n p hp with h | h
  · subst h; simpa using hn
  · exact hm p h

theorem nonNegAllowances_decrement (s : Store) (u : String)
    (hs : nonNegAllowances s = true) :
    nonNegAllowances (decrementAllowance s u).store = true := by
  cases hl : lookupAllow s.allowances u with
  | none => rw [decrementAllowance_of_lookup_none s u hl]; exact hs
  | some k =>
    rcases lt_trichotomy k 0 with hk | hk | hk
    · rw [decrementAllowance_of_lookup_neg s u k hl hk]; exact hs
    · subst hk; rw [decrementAllowance_of_lookup_zero s u hl]; exact hs
    · have hg : 0 < getAllowance s u := by
        rw [getAllowance_of_lookup_eq_some s u k hl]; exact hk
      rw [decrementAllowance_pos s u hg]
      refine nonNegMap_setAllow _ _ _ hs ?_
      rw [getAllowance_of_lookup_eq_some s u k hl]
      omega

/-- C4: decrementing an allowance that is already 0 (or absent) leaves the
store unchanged and returns 0; and starting from a store with no negative
allowances, no sequence of allowance operations (grants validated by the
`!allow` command to be ≥ 1) ever makes any stored allowance negative. -/
theorem allowance_never_negative :
    (∀ (s : Store) (u : String), getAllowance s u = 0 →
      decrementAllowance s u = { ret := 0, store := s, saved := false }) ∧
    (∀ (ops : List AllowanceOp) (s : Store),
      (∀ op ∈ ops, validGrantB op = true) → nonNegAllowances s = true →
      nonNegAllowances (ops.foldl applyAllowanceOp s) = true) := by
  constructor
  · intro s u h
    cases hl : lookupAllow s.allowances u with
    | none => exact decrementAllowance_of_lookup_none s u hl
    | some k =>
      have hk : k = 0 := by rw [getAllowance_of_lookup_eq_some s u k hl] at h; exact h
      subst hk
      exact decrementAllowance_of_lookup_zero s u hl
  · intro ops
    induction ops with
    | nil => intro s _ hs; exact hs
    | cons op ops ih =>
      intro s hops hs
      refine ih _ (fun o ho => hops o (List.mem_cons_of_mem _ ho)) ?_
      have hop : validGrantB op = true := hops op (List.mem_cons_self _ _)
      cases op with
      | grant u n =>
        have hn : (0:Int) ≤ n := by
          have := hop
          simp only [validGrantB, decide_eq_true_eq] at this
          omega
        exact nonNegMap_setAllow _ _ _ hs hn
      | query u => exact hs
      | spend u => exact nonNegAllowances_decrement s u hs

/-- Witness for C4: a concrete decrement at allowance 0, and a concrete
operation sequence (grant 1, then two spends) preserving nonnegativity. -/
theorem allowance_never_negative_witness :
    (getAllowance emptyStore "u" = 0 ∧
      decrementAllowance emptyStore "u" = { ret := 0, store := emptyStore, saved := false }) ∧
    ((∀ op ∈ [AllowanceOp.grant "u" 1, AllowanceOp.spend "u", AllowanceOp.spend "u"],
        validGrantB op = true) ∧
      nonNegAllowances emptyStore = true ∧
      nonNegAllowances
        ([AllowanceOp.grant "u" 1, AllowanceOp.spend "u", AllowanceOp.spend "u"].foldl
          applyAllowanceOp emptyStore) = true) :=
  ⟨⟨by decide, allowance_never_negative.1 emptyStore "u" (by decide)⟩,
   ⟨by decide, by decide,
    allowance_never_negative.2 _ emptyStore (by decide) (by decide)⟩⟩

/-! Removal of feedback records by message id (C3). -/

theorem length_filter_not_add {α : Type} (p : α → Bool) (l : List α) :
    (l.filter (fun a => !p a)).length + l.countP p = l.length := by
  induction l with
  | nil => rfl
  | cons a l ih =>
    cases h : p a with
    | true => simp only [List.filter_cons, List.countP_cons, h]; simp; omega
    | false => simp only [List.filter_cons, List.countP_cons, h]; simp; omega

/-- C3: when exactly one record carries `messageId = m`,
`removeFeedbackByMessageId m` removes exactly that record: the result is the
order-preserving filter keeping every record whose messageId differs, its
length drops by exactly one, the allowances map is untouched, and the store
is saved. -/
theorem removeFeedback_removes_exactly (s : Store) (m : String)
    (h : s.feedback.countP (fun f => decide (f.messageId = some m)) = 1) :
    (removeFeedbackByMessageId s m).1.allowances = s.allowances ∧
    (removeFeedbackByMessageId s m).1.feedback
      = s.feedback.filter (fun f => decide (f.messageId ≠ some m)) ∧
    (removeFeedbackByMessageId s m).1.feedback.length + 1 = s.feedback.length ∧
    (removeFeedbackByMessageId s m).2 = true := by
  have hfun : (fun f : FeedbackRecord => decide (f.messageId ≠ some m))
      = (fun f : FeedbackRecord => !(decide (f.messageId = some m))) := by
    funext f; simp [decide_not]
  have hlen : (s.feedback.filter (fun f => decide (f.messageId ≠ some m))).length + 1
      = s.feedback.length := by
    rw [hfun]
    have := length_filter_not_add (fun f : FeedbackRecord => decide (f.messageId = some m))
      s.feedback
    omega
  have hne : (s.feedback.filter (fun f => decide (f.messageId ≠ some m))).length
      ≠ s.feedback.length := by omega
  simp only [removeFeedbackByMessageId]
  rw [if_pos hne]
  exact ⟨rfl, rfl, hlen, rfl⟩

def sampleKept : FeedbackRecord :=
  { userId := "a", username := "alice", rating := 3, comment := "", platform := "Desktop",
    createdAt := "t0", messageId := some "m0", channelId := some "c0" }

def sampleRemoved : FeedbackRecord :=
  { userId := "b", username := "bob", rating := 5, comment := "nice", platform := "Web",
    createdAt := "t1", messageId := some "m1", channelId := some "c0" }

def c3Store : Store := { feedback := [sampleKept, sampleRemoved], allowances := [("a", 1)] }

/-- Witness for C3: deleting the log message of `sampleRemoved` keeps
`sampleKept` and the allowances. -/
theorem removeFeedback_removes_exactly_witness :
    (c3Store.feedback.countP (fun f => decide (f.messageId = some "m1")) = 1) ∧
    ((removeFeedbackByMessageId c3Store "m1").1.allowances = c3Store.allowances ∧
     (removeFeedbackByMessageId c3Store "m1").1.feedback
       = c3Store.feedback.filter (fun f => decide (f.messageId ≠ some "m1")) ∧
     (removeFeedbackByMessageId c3Store "m1").1.feedback.length + 1
       = c3Store.feedback.length ∧
     (removeFeedbackByMessageId c3Store "m1").2 = true) :=
  ⟨by decide, removeFeedback_removes_exactly c3Store "m1" (by decide)⟩

/-! The HTTP read endpoint (C6). -/

/-- Embedding of the `GET /api/feedback-logs` handler (src/index.js lines
123-133): load the store, return a reversed copy of the feedback array
(newest first); the store is not written. -/
def apiFeedbackLogs (s : Store) : List FeedbackRecord × Store :=
  (s.feedback.reverse, s)

/-- A store built by appending entries via `addFeedback`, starting empty. -/
def buildStore (entries : List FeedbackRecord) : Store :=
  entries.foldl (fun s e => (addFeedback s e).1) emptyStore

theorem foldl_addFeedback_feedback :
    ∀ (entries : List FeedbackRecord) (s : Store),
      (entries.foldl (fun s e => (addFeedback s e).1) s).feedback
        = s.feedback ++ entries := by
  intro entries
  induction entries with
  | nil => intro s; simp
  | cons e es ih =>
    intro s
    rw [List.foldl_cons, ih]
    simp [addFeedback]

/-- C6: the feedback-logs endpoint returns exactly the reverse of the order
in which `addFeedback` appended the records (newest first), and it does not
modify the store. -/
theorem apiFeedbackLogs_newest_first :
    (∀ s : Store, (apiFeedbackLogs s).2 = s) ∧
    (∀ entries : List FeedbackRecord,
      (apiFeedbackLogs (buildStore entries)).1 = entries.reverse) := by
  refine ⟨fun s => rfl, fun entries => ?_⟩
  simp [apiFeedbackLogs, buildStore, foldl_addFeedback_feedback, emptyStore]

/-! The submission loop (C1). -/

/-- One feedback submission attempt, as performed by the modal-submit handler
after rating validation (src/index.js lines 603-613 and 661-675): re-check
the allowance (`remaining <= 0` rejects with no record written), otherwise
append the record via `addFeedback` and call `decrementAllowance`. -/
def submitAttempt (s : Store) (u : String) (e : FeedbackRecord) : Bool × Store :=
  if getAllowance s u ≤ 0 then (false, s)
  else
    let s1 := (addFeedback s e).1
    (true, (decrementAllowance s1 u).store)

/-- A sequence of submission attempts; returns the final store and the
number of accepted submissions. -/
def runSubmits (u : String) : Store → List FeedbackRecord → Store × Nat
  | s, [] => (s, 0)
  | s, e :: es =>
    let r := submitAttempt s u e
    let rest := runSubmits u r.2 es
    (rest.1, (if r.1 then 1 else 0) + rest.2)

theorem getAllowance_mk_setAllow (fb : List FeedbackRecord) (m : AllowMap)
    (u : String) (n : Int) :
    getAllowance { feedback := fb, allowances := setAllow m u n } u = n := by
  simp [getAllowance, lookupAllow_setAllow_self, jsOrInt_some_zero]

theorem submitAttempt_accepted (s : Store) (u : String) (e : FeedbackRecord)
    (h : 0 < getAllowance s u) :
    submitAttempt s u e = (true,
      { feedback := s.feedback ++ [e]
        allowances := setAllow s.allowances u (getAllowance s u - 1) }) := by
  have hnot : ¬ (getAllowance s u ≤ 0) := by omega
  have h2 : 0 < getAllowance ({ s with feedback := s.feedback ++ [e] }) u := h
  simp only [submitAttempt, if_neg hnot, addFeedback]
  rw [decrementAllowance_pos _ u h2]
  rfl

theorem runSubmits_exact (u : String) :
    ∀ (es : List FeedbackRecord) (s : Store),
      getAllowance s u = (es.length : Int) →
      (runSubmits u s es).2 = es.length ∧
      (runSubmits u s es).1.feedback = s.feedback ++ es ∧
      getAllowance (runSubmits u s es).1 u = 0 := by
  intro es
  induction es with
  | nil =>
    intro s h
    exact ⟨rfl, by simp [runSubmits], by simpa using h⟩
  | cons e es ih =>
    intro s h
    have hpos : 0 < getAllowance s u := by
      rw [h]; simp only [List.length_cons]; push_cast; omega
    have hstep := submitAttempt_accepted s u e hpos
    have h1 : getAllowance
        ({ feedback := s.feedback ++ [e]
           allowances := setAllow s.allowances u (getAllowance s u - 1) } : Store) u
        = getAllowance s u - 1 := getAllowance_mk_setAllow _ _ _ _
    have hg' : getAllowance
        ({ feedback := s.feedback ++ [e]
           allowances := setAllow s.allowances u (getAllowance s u - 1) } : Store) u
        = (es.length : Int) := by
      rw [h1, h]; simp only [List.length_cons]; push_cast; omega
    obtain ⟨hk, hfb, hz⟩ := ih _ hg'
    refine ⟨?_, ?_, ?_⟩
    · simp only [runSubmits, hstep, hk]
      simp only [List.length_cons, if_true]
      omega
    · simp only [runSubmits, hstep]
      rw [hfb]
      simp
    · simp only [runSubmits, hstep]
      exact hz

/-- C1: after granting allowance N ≥ 1 to user u via `setAllowance`,
N submission attempts are all accepted, the N records are appended in order,
u's allowance ends at exactly 0, and a further (N+1)-th attempt is rejected
by the `getAllowance(u) <= 0` re-check with the store unchanged (no record
written, no decrement). -/
theorem grant_then_exhaust (s : Store) (u : String) (n : Nat) (_hn : 1 ≤ n)
    (es : List FeedbackRecord) (hlen : es.length = n) (e : FeedbackRecord) :
    (runSubmits u (setAllowanceOp s u (n : Int)).1 es).2 = n ∧
    getAllowance (runSubmits u (setAllowanceOp s u (n : Int)).1 es).1 u = 0 ∧
    (runSubmits u (setAllowanceOp s u (n : Int)).1 es).1.feedback = s.feedback ++ es ∧
    submitAttempt (runSubmits u (setAllowanceOp s u (n : Int)).1 es).1 u e
      = (false, (runSubmits u (setAllowanceOp s u (n : Int)).1 es).1) := by
  have h0 : getAllowance (setAllowanceOp s u (n : Int)).1 u = (es.length : Int) := by
    rw [hlen]
    exact getAllowance_setAllow s s.allowances u (n : Int)
  obtain ⟨hk, hfb, hz⟩ := runSubmits_exact u es _ h0
  refine ⟨by rw [hk, hlen], hz, hfb, ?_⟩
  simp [submitAttempt, hz]

def sampleRec : FeedbackRecord :=
  { userId := "u", username := "user", rating := 5, comment := "great",
    platform := "Mobile", createdAt := "t1", messageId := some "mX", channelId := some "cX" }

/-- Witness for C1: grant 1 to "u", submit once (accepted), allowance ends 0,
a second attempt is rejected with the store unchanged. -/
theorem grant_then_exhaust_witness :
    1 ≤ 1 ∧ ([sampleRec].length = 1) ∧
    ((runSubmits "u" (setAllowanceOp emptyStore "u" ((1 : Nat) : Int)).1 [sampleRec]).2 = 1 ∧
     getAllowance (runSubmits "u" (setAllowanceOp emptyStore "u" ((1 : Nat) : Int)).1
       [sampleRec]).1 "u" = 0 ∧
     (runSubmits "u" (setAllowanceOp emptyStore "u" ((1 : Nat) : Int)).1 [sampleRec]).1.feedback
       = emptyStore.feedback ++ [sampleRec] ∧
     submitAttempt (runSubmits "u" (setAllowanceOp emptyStore "u" ((1 : Nat) : Int)).1
         [sampleRec]).1 "u" sampleRec
       = (false, (runSubmits "u" (setAllowanceOp emptyStore "u" ((1 : Nat) : Int)).1
           [sampleRec]).1)) :=
  ⟨by decide, by decide,
   grant_then_exhaust emptyStore "u" 1 (by decide) [sampleRec] (by decide) sampleRec⟩

/-! Number parsing and the feedback modal (C5) and `!allow` command (C9). -/

/-- Value of a digit run, most significant first. -/
def digitsVal (cs : List Char) : Nat :=
  cs.foldl (fun a c => a * 10 + (c.toNat - 48)) 0

/-- Longest leading run of decimal digits; `none` when there is none. -/
def parseNatDigits (cs : List Char) : Option Nat :=
  let ds := cs.takeWhile Char.isDigit
  if ds.isEmpty then none else some (digitsVal ds)

/-- Model of JS `parseInt(str, 10)`: skip leading whitespace, read an
optional sign and then the longest leading run of decimal digits; `none`
models `NaN` (no digits).  JS numbers lose integer precision above 2^53;
the inputs here (a 1-character rating field and small grant amounts) stay
far below that, so exact integers are used. -/
def parseIntJS (s : String) : Option Int :=
  match s.data.dropWhile Char.isWhitespace with
  | '-' :: rest => (parseNatDigits rest).map (fun v => -(v : Int))
  | '+' :: rest => (parseNatDigits rest).map (fun v => (v : Int))
  | rest => (parseNatDigits rest).map (fun v => (v : Int))

/-- Outcome of a feedback modal submission, as replied to the user. -/
inductive ModalResult where
  | ratingError
  | notAllowed
  | submitted (left : Int)
deriving DecidableEq, Repr

/-- Embedding of the `feedback_modal` submit handler (src/index.js lines
589-688): parse the rating; `isNaN(rating) || rating < 1 || rating > 5`
replies with the range error before anything is written; then the allowance
is re-checked; then the record (with the optional log-message link `sent`)
is appended via `addFeedback` and the allowance decremented, replying with
the remaining count. -/
def feedbackModalSubmit (s : Store)
    (uid username ratingStr comment platform createdAt : String)
    (sent : Option (String × String)) : ModalResult × Store :=
  match parseIntJS ratingStr with
  | none => (ModalResult.ratingError, s)
  | some rating =>
    if rating < 1 ∨ 5 < rating then (ModalResult.ratingError, s)
    else if getAllowance s uid ≤ 0 then (ModalResult.notAllowed, s)
    else
      let entry : FeedbackRecord :=
        { userId := uid, username := username, rating := rating, comment := comment,
          platform := platform, createdAt := createdAt,
          messageId := sent.map (fun p => p.1), channelId := sent.map (fun p => p.2) }
      let s1 := (addFeedback s entry).1
      let r := decrementAllowance s1 uid
      (ModalResult.submitted r.ret, r.store)

/-- C5: a modal submission whose rating field parses to no number, or to a
number outside 1..5 (such as 0 or 6), is rejected with the rating-range
error before persistence: the store is unchanged, so no record is appended
and no allowance is decremented.  Hence a record is persisted only when the
parsed rating is between 1 and 5. -/
theorem modal_rejects_bad_rating (s : Store)
    (uid username ratingStr comment platform createdAt : String)
    (sent : Option (String × String))
    (h : parseIntJS ratingStr = none ∨
      ∃ r, parseIntJS ratingStr = some r ∧ (r < 1 ∨ 5 < r)) :
    feedbackModalSubmit s uid username ratingStr comment platform createdAt sent
      = (ModalResult.ratingError, s) := by
  rcases h with h | ⟨r, hr, hrange⟩
  · simp [feedbackModalSubmit, h]
  · simp only [feedbackModalSubmit, hr]
    rw [if_pos hrange]

/-- Witness for C5: rating string "0" parses to 0, below range, and is
rejected with the store unchanged. -/
theorem modal_rejects_bad_rating_witness :
    (parseIntJS "0" = none ∨ ∃ r, parseIntJS "0" = some r ∧ (r < 1 ∨ 5 < r)) ∧
    feedbackModalSubmit emptyStore "u" "user" "0" "" "Unknown" "t" none
      = (ModalResult.ratingError, emptyStore) :=
  ⟨Or.inr ⟨0, by decide, Or.inl (by decide)⟩,
   modal_rejects_bad_rating emptyStore "u" "user" "0" "" "Unknown" "t" none
     (Or.inr ⟨0, by decide, Or.inl (by decide)⟩)⟩

/-- Reply of the `!allow` command branch. -/
inductive AllowCmdResult where
  | noPermission
  | usage
  | badAmount
  | granted (amount : Int)
deriving DecidableEq, Repr

/-- Embedding of the `!allow @user amount` branch of the messageCreate
handler (src/index.js lines 179-220): staff-role check, then
`!target || args.length < 3` usage check, then
`isNaN(amount) || amount < 1` amount check, and only then
`setAllowance(target.id, amount)`. -/
def allowCommand (s : Store) (isStaff : Bool) (target : Option String)
    (args : List String) : AllowCmdResult × Store :=
  if !isStaff then (AllowCmdResult.noPermission, s)
  else match target with
    | none => (AllowCmdResult.usage, s)
    | some t =>
      if args.length < 3 then (AllowCmdResult.usage, s)
      else match parseIntJS (args.getD 2 "") with
        | none => (AllowCmdResult.badAmount, s)
        | some amount =>
          if amount < 1 then (AllowCmdResult.badAmount, s)
          else (AllowCmdResult.granted amount, (setAllowanceOp s t amount).1)

/-- C9: the `!allow` command rejects a non-numeric or sub-1 amount before
mutating anything (the store is returned unchanged), and `setAllowance(u, n)`
overwrites u's quota to exactly n — regardless of any previous value — while
leaving the feedback list unchanged. -/
theorem allow_grant_semantics (s : Store) (isStaff : Bool) (target : Option String)
    (args : List String) (u : String) (n : Int)
    (h : parseIntJS (args.getD 2 "") = none ∨
      ∃ v, parseIntJS (args.getD 2 "") = some v ∧ v < 1) :
    (allowCommand s isStaff target args).2 = s ∧
    lookupAllow ((setAllowanceOp s u n).1).allowances u = some n ∧
    ((setAllowanceOp s u n).1).feedback = s.feedback := by
  refine ⟨?_, lookupAllow_setAllow_self s.allowances u n, rfl⟩
  cases hst : isStaff with
  | false => simp [allowCommand]
  | true =>
    cases target with
    | none => simp [allowCommand]
    | some t =>
      by_cases hlen : args.length < 3
      · simp [allowCommand, hlen]
      · rcases h with h | ⟨v, hv, hv1⟩
        · have h2 : parseIntJS (args[2]?.getD "") = none := by
            simpa [List.getD_eq_getElem?_getD] using h
          simp [allowCommand, hlen, h2]
        · have h2 : parseIntJS (args[2]?.getD "") = some v := by
            simpa [List.getD_eq_getElem?_getD] using hv
          simp [allowCommand, hlen, h2, hv1]

/-- Witness for C9: `!allow @u abc` parses to NaN and mutates nothing;
`setAllowance "u" 2` stores exactly 2. -/
theorem allow_grant_semantics_witness :
    (parseIntJS (["!allow", "@u", "abc"].getD 2 "") = none ∨
      ∃ v, parseIntJS (["!allow", "@u", "abc"].getD 2 "") = some v ∧ v < 1) ∧
    ((allowCommand emptyStore true (some "u") ["!allow", "@u", "abc"]).2 = emptyStore ∧
     lookupAllow ((setAllowanceOp emptyStore "u" 2).1).allowances "u" = some 2 ∧
     ((setAllowanceOp emptyStore "u" 2).1).feedback = emptyStore.feedback) :=
  ⟨Or.inl (by decide),
   allow_grant_semantics emptyStore true (some "u") ["!allow", "@u", "abc"] "u" 2
     (Or.inl (by decide))⟩

/-! The ticket subsystem (C7 and C8): channels, topics, the duplicate-ticket
check and the topic UserID pattern match. -/

/-- Does the second list start with the first one (character-wise)? -/
def startsWithList : List Char → List Char → Bool
  | [], _ => true
  | _ :: _, [] => false
  | p :: ps, c :: cs => if p = c then startsWithList ps cs else false

/-- JS `t.includes(pat)` on the underlying character lists: some suffix of
the text starts with the pattern (the empty pattern is always contained). -/
def containsList (pat : List Char) : List Char → Bool
  | [] => pat.isEmpty
  | c :: cs => startsWithList pat (c :: cs) || containsList pat cs

/-- JS `t.includes(pat)` on strings. -/
def jsIncludes (t pat : String) : Bool := containsList pat.data t.data

def topicHead : List Char := ['T', 'i', 'c', 'k', 'e', 't', ' ', 'f', 'o', 'r', ' ']

def topicOpen : List Char := [' ', '(']

/-- The marker `UserID:` used both when writing and when parsing topics. -/
def userIdKey : List Char := ['U', 's', 'e', 'r', 'I', 'D', ':']

def topicTail : List Char := [')', ' ', '|', ' ', 'T', 'y', 'p', 'e', ':', ' ']

/-- The topic written at ticket creation (src/index.js line 504):
`Ticket for <tag> (UserID:<id>) | Type: <label>`. -/
def mkTicketTopic (tag uid label : String) : String :=
  ⟨topicHead ++ tag.data ++ topicOpen ++ userIdKey ++ uid.data ++ topicTail ++ label.data⟩

/-- The search string `UserID:<id>` of the duplicate-ticket check
(src/index.js line 482). -/
def userMark (uid : String) : String := ⟨userIdKey ++ uid.data⟩

structure TicketType where
  label : String
  value : String
  emoji : String
deriving DecidableEq, Repr

/-- The fixed select-menu options (src/index.js lines 91-96). -/
def TICKET_TYPES : List TicketType :=
  [{ label := "General Support", value := "general", emoji := "❔" },
   { label := "Purchase / Order Issue", value := "purchase", emoji := "💳" },
   { label := "Bug / Technical Issue", value := "bug", emoji := "🐞" },
   { label := "Other Question", value := "other", emoji := "📩" }]

/-- Embedding of `prettyTicketLabel` (src/index.js lines 98-101). -/
def prettyTicketLabel (v : String) : String :=
  match TICKET_TYPES.find? (fun t => t.value = v) with
  | some t => t.label
  | none => v

/-- The hard-coded `TICKET_CATEGORY_ID` (src/index.js line 87). -/
def ticketCategoryId : String := "1447986703250882580"

/-- A guild channel, reduced to the fields the ticket handlers read. -/
structure Channel where
  id : String
  name : String
  parentId : Option String
  topic : Option String
deriving DecidableEq, Repr

/-- The duplicate-ticket predicate (src/index.js lines 478-483):
`ch.parentId === TICKET_CATEGORY_ID && ch.topic && ch.topic.includes("UserID:<id>")`
(a null or empty topic is falsy). -/
def chanMatches (uid : String) (ch : Channel) : Bool :=
  if ch.parentId = some ticketCategoryId then
    match ch.topic with
    | none => false
    | some t => if t.data.isEmpty then false else jsIncludes t (userMark uid)
  else false

/-- The sanitised channel base name (src/index.js lines 493-497):
lower-case, keep `[a-z0-9]`, default `user`. -/
def safeBaseName (username : String) : String :=
  let filtered := username.toLower.data.filter (fun c => c.isLower || c.isDigit)
  if filtered.isEmpty then "user" else ⟨filtered⟩

/-- Channel name `ticket-<base>` truncated to 90 characters
(src/index.js line 497). -/
def channelNameFor (username : String) : String :=
  ⟨(['t', 'i', 'c', 'k', 'e', 't', '-'] ++ (safeBaseName username).data).take 90⟩

/-- Reply of the `ticket_select` handler. -/
inductive TicketResult where
  | badCategory
  | existing (channelId : String)
  | created (channelId : String)
deriving DecidableEq, Repr

/-- Embedding of the `ticket_select` handler (src/index.js lines 456-585):
if the configured category is missing reply with the configuration error;
if some cached channel matches the duplicate predicate reply with that
channel and create nothing; otherwise create a channel under the category
whose topic encodes the requester's UserID and the type label.  `newId` is
the identifier the platform assigns to the created channel. -/
def ticketSelect (chans : List Channel) (categoryOk : Bool)
    (uid tag username selection newId : String) : TicketResult × List Channel :=
  if !categoryOk then (TicketResult.badCategory, chans)
  else match chans.find? (chanMatches uid) with
    | some ex => (TicketResult.existing ex.id, chans)
    | none =>
      let newCh : Channel :=
        { id := newId, name := channelNameFor username,
          parentId := some ticketCategoryId,
          topic := some (mkTicketTopic tag uid (prettyTicketLabel selection)) }
      (TicketResult.created newId, chans ++ [newCh])

/-- Embedding of the regex search `topic.match(/UserID:(\d{17,19})/)` at one
position: the text must start with `UserID:` followed by at least 17 digits;
the capture is greedy, up to 19 digits. -/
def matchUserIdAt (cs : List Char) : Option (List Char) :=
  if startsWithList userIdKey cs then
    let ds := (cs.drop userIdKey.length).takeWhile Char.isDigit
    if 17 ≤ ds.length then some (ds.take 19) else none
  else none

/-- Left-to-right scan of the regex engine: first position where the
pattern matches wins. -/
def findUserId : List Char → Option (List Char)
  | [] => none
  | c :: cs =>
    match matchUserIdAt (c :: cs) with
    | some ds => some ds
    | none => findUserId cs

/-- The Notify/Close handlers' topic parse (src/index.js lines 354-363):
the first capture of `/UserID:(\d{17,19})/` on the channel topic. -/
def topicUserId (topic : String) : Option String :=
  (findUserId topic.data).map (fun ds => ⟨ds⟩)

/-! Lemmas about substring search, and C7. -/

theorem startsWithList_append_self (p l : List Char) :
    startsWithList p (p ++ l) = true := by
  induction p with
  | nil => rfl
  | cons c cs ih => simp [startsWithList, ih]

theorem containsList_self_append (pat B : List Char) :
    containsList pat (pat ++ B) = true := by
  cases pat with
  | nil =>
    cases B with
    | nil => rfl
    | cons b bs => simp [containsList, startsWithList]
  | cons c cs =>
    have h := startsWithList_append_self (c :: cs) B
    simp only [List.cons_append] at h ⊢
    simp [containsList, h]

theorem containsList_of_append (pat A B : List Char) :
    containsList pat (A ++ pat ++ B) = true := by
  induction A with
  | nil => simpa using containsList_self_append pat B
  | cons a A ih =>
    rw [List.append_assoc] at ih
    simp only [List.cons_append, List.append_assoc, containsList]
    simp [ih]

theorem find?_append_none {α : Type} (p : α → Bool) (l₁ l₂ : List α)
    (h : l₁.find? p = none) : (l₁ ++ l₂).find? p = l₂.find? p := by
  simp [List.find?_append, h]

/-- The channel created by `ticketSelect` matches the duplicate-ticket
predicate for its own requester. -/
theorem chanMatches_created (uid tag label i nm : String) :
    chanMatches uid
      { id := i, name := nm, parentId := some ticketCategoryId,
        topic := some (mkTicketTopic tag uid label) } = true := by
  have hempty : (mkTicketTopic tag uid label).data.isEmpty = false := rfl
  have hdata : (mkTicketTopic tag uid label).data
      = (topicHead ++ tag.data ++ topicOpen) ++ (userIdKey ++ uid.data)
        ++ (topicTail ++ label.data) := by
    simp [mkTicketTopic, List.append_assoc]
  have hinc : jsIncludes (mkTicketTopic tag uid label) (userMark uid) = true := by
    show containsList (userMark uid).data (mkTicketTopic tag uid label).data = true
    rw [hdata]
    exact containsList_of_append (userIdKey ++ uid.data) _ _
  simp [chanMatches, hempty, hinc]

/-- After any `ticket_select` call by user `uid` (with the category
configured), some channel matching `uid` exists in the resulting list. -/
theorem ticketSelect_find_isSome (cs : List Channel)
    (uid t n sel i : String) :
    ((ticketSelect cs true uid t n sel i).2.find? (chanMatches uid)).isSome := by
  cases hf : cs.find? (chanMatches uid) with
  | some ex => simp [ticketSelect, hf]
  | none =>
    simp only [ticketSelect, Bool.not_true, Bool.false_eq_true, if_false, hf]
    rw [find?_append_none _ _ _ hf]
    simp [List.find?, chanMatches_created]

/-- C7: when some channel under the configured category already carries
`UserID:<uid>` in its topic, selecting a ticket category replies with the
first such channel and creates no channel (the channel list is unchanged);
moreover, sequentially, a `ticket_select` by `uid` immediately following any
`ticket_select` by `uid` never adds a channel — at most one open ticket per
user per category at creation time (racing creations are out of scope). -/
theorem ticketSelect_duplicate_check (chans : List Channel)
    (uid tag username selection newId : String) (ch : Channel)
    (hmem : ch ∈ chans) (hmatch : chanMatches uid ch = true) :
    (∃ ex, chans.find? (chanMatches uid) = some ex ∧
      ticketSelect chans true uid tag username selection newId
        = (TicketResult.existing ex.id, chans)) ∧
    (∀ (cs : List Channel) (t2 n2 s2 i2 t3 n3 s3 i3 : String),
      (ticketSelect (ticketSelect cs true uid t2 n2 s2 i2).2 true uid t3 n3 s3 i3).2
        = (ticketSelect cs true uid t2 n2 s2 i2).2) := by
  constructor
  · have hsome : (chans.find? (chanMatches uid)).isSome :=
      List.find?_isSome.mpr ⟨ch, hmem, hmatch⟩
    obtain ⟨ex, hex⟩ := Option.isSome_iff_exists.mp hsome
    exact ⟨ex, hex, by simp [ticketSelect, hex]⟩
  · intro cs t2 n2 s2 i2 t3 n3 s3 i3
    obtain ⟨ex, hex⟩ :=
      Option.isSome_iff_exists.mp (ticketSelect_find_isSome cs uid t2 n2 s2 i2)
    generalize hgen : (ticketSelect cs true uid t2 n2 s2 i2).2 = s1 at hex ⊢
    simp [ticketSelect, hex]

def existingTicket : Channel :=
  { id := "chan1", name := "ticket-alice",
    parentId := some ticketCategoryId,
    topic := some "Ticket for alice (UserID:12345678901234567) | Type: General Support" }

/-- Witness for C7: with `existingTicket` cached, a selection by the same
user returns that channel and the channel list is unchanged. -/
theorem ticketSelect_duplicate_check_witness :
    existingTicket ∈ [existingTicket] ∧
    chanMatches "12345678901234567" existingTicket = true ∧
    ((∃ ex, [existingTicket].find? (chanMatches "12345678901234567") = some ex ∧
       ticketSelect [existingTicket] true "12345678901234567" "alice" "alice" "general" "new1"
         = (TicketResult.existing ex.id, [existingTicket])) ∧
     (∀ (cs : List Channel) (t2 n2 s2 i2 t3 n3 s3 i3 : String),
       (ticketSelect (ticketSelect cs true "12345678901234567" t2 n2 s2 i2).2 true
           "12345678901234567" t3 n3 s3 i3).2
         = (ticketSelect cs true "12345678901234567" t2 n2 s2 i2).2)) :=
  ⟨List.mem_cons_self _ _, by decide,
   ticketSelect_duplicate_check [existingTicket] "12345678901234567" "alice" "alice"
     "general" "new1" existingTicket (List.mem_cons_self _ _) (by decide)⟩

/-! The topic round-trip (C8). -/

theorem startsWithList_getElem? (p : List Char) :
    ∀ (l : List Char), startsWithList p l = true →
      ∀ i, i < p.length → l[i]? = p[i]? := by
  induction p with
  | nil => intro l _ i hi; simp at hi
  | cons c cs ih =>
    intro l h i hi
    cases l with
    | nil => simp [startsWithList] at h
    | cons a as =>
      by_cases hc : c = a
      · subst hc
        rw [startsWithList, if_pos rfl] at h
        cases i with
        | zero => simp
        | succ j =>
          have hj : j < cs.length := by simpa using hi
          simpa using ih as h j hj
      · rw [startsWithList, if_neg hc] at h
        exact absurd h (by simp)

theorem matchUserIdAt_append_none (A rest : List Char) (hA : A ≠ [])
    (hcf : ∀ c ∈ A, c ≠ ':') :
    matchUserIdAt (A ++ (userIdKey ++ rest)) = none := by
  have hsw : startsWithList userIdKey (A ++ (userIdKey ++ rest)) = false := by
    cases hb : startsWithList userIdKey (A ++ (userIdKey ++ rest)) with
    | false => rfl
    | true =>
      exfalso
      have h6 := startsWithList_getElem? userIdKey _ hb 6 (by decide)
      by_cases hlen : 6 < A.length
      · rw [List.getElem?_append_left hlen] at h6
        have hmem : ':' ∈ A := List.getElem?_mem (by rw [h6]; rfl)
        exact hcf ':' hmem rfl
      · push_neg at hlen
        rw [List.getElem?_append_right hlen] at h6
        have hA1 : 1 ≤ A.length := List.length_pos.mpr hA
        have hj : 6 - A.length < userIdKey.length := by
          have : userIdKey.length = 7 := rfl
          omega
        rw [List.getElem?_append_left hj] at h6
        have hj5 : 6 - A.length ≤ 5 := by omega
        set j := 6 - A.length with hjdef
        have hj0 : 0 ≤ j := Nat.zero_le j
        interval_cases j <;> exact absurd h6 (by decide)
  simp [matchUserIdAt, hsw]

theorem findUserId_skip (rest : List Char) :
    ∀ (A : List Char), (∀ c ∈ A, c ≠ ':') →
      findUserId (A ++ (userIdKey ++ rest)) = findUserId (userIdKey ++ rest) := by
  intro A
  induction A with
  | nil => intro _; rfl
  | cons a A ih =>
    intro hcf
    have hm := matchUserIdAt_append_none (a :: A) rest (by simp) hcf
    have hcons : ((a :: A) ++ (userIdKey ++ rest))
        = a :: (A ++ (userIdKey ++ rest)) := rfl
    rw [hcons] at hm
    rw [hcons, findUserId, hm]
    exact ih (fun c hc => hcf c (List.mem_cons_of_mem _ hc))

theorem takeWhile_append_all (p : Char → Bool) :
    ∀ (xs : List Char), (∀ c ∈ xs, p c = true) →
      ∀ (y : Char) (ys : List Char), p y = false →
        (xs ++ y :: ys).takeWhile p = xs := by
  intro xs
  induction xs with
  | nil => intro _ y ys hy; simp [List.takeWhile_cons, hy]
  | cons x xs ih =>
    intro hall y ys hy
    have hx : p x = true := hall x (List.mem_cons_self _ _)
    simp [List.takeWhile_cons, hx,
      ih (fun c hc => hall c (List.mem_cons_of_mem _ hc)) y ys hy]

theorem matchUserIdAt_key (uid : String) (ys : List Char)
    (hdig : ∀ c ∈ uid.data, c.isDigit = true)
    (h17 : 17 ≤ uid.data.length) (h19 : uid.data.length ≤ 19) :
    matchUserIdAt (userIdKey ++ (uid.data ++ ')' :: ys)) = some uid.data := by
  have hsw : startsWithList userIdKey (userIdKey ++ (uid.data ++ ')' :: ys)) = true :=
    startsWithList_append_self _ _
  have hdrop : (userIdKey ++ (uid.data ++ ')' :: ys)).drop userIdKey.length
      = uid.data ++ ')' :: ys := rfl
  have htake : (uid.data ++ ')' :: ys).takeWhile Char.isDigit = uid.data :=
    takeWhile_append_all Char.isDigit uid.data hdig ')' ys (by decide)
  simp only [matchUserIdAt, hsw, if_true, hdrop, htake]
  rw [if_pos h17, List.take_of_length_le h19]

/-- C8: the topic written at ticket creation round-trips through the Notify
handler's pattern match: for a user id of 17–19 decimal digits (and a
platform tag, which on this chat platform never contains a colon), parsing
the created topic recovers exactly that id. -/
theorem topic_roundtrip (tag uid label : String)
    (htag : ∀ c ∈ tag.data, c ≠ ':')
    (hdig : ∀ c ∈ uid.data, c.isDigit = true)
    (h17 : 17 ≤ uid.data.length) (h19 : uid.data.length ≤ 19) :
    topicUserId (mkTicketTopic tag uid label) = some uid := by
  have hdata : (mkTicketTopic tag uid label).data
      = (topicHead ++ tag.data ++ topicOpen) ++ (userIdKey ++ (uid.data ++ ')' ::
        ([' ', '|', ' ', 'T', 'y', 'p', 'e', ':', ' '] ++ label.data))) := by
    simp [mkTicketTopic, topicTail, List.append_assoc]
  have hcfA : ∀ c ∈ topicHead ++ tag.data ++ topicOpen, c ≠ ':' := by
    have h1 : ∀ c ∈ topicHead, c ≠ ':' := by decide
    have h2 : ∀ c ∈ topicOpen, c ≠ ':' := by decide
    intro c hc
    rcases List.mem_append.mp hc with hc | hc
    · rcases List.mem_append.mp hc with hc | hc
      · exact h1 c hc
      · exact htag c hc
    · exact h2 c hc
  have hkey : findUserId (userIdKey ++ (uid.data ++ ')' ::
      ([' ', '|', ' ', 'T', 'y', 'p', 'e', ':', ' '] ++ label.data))) = some uid.data := by
    have hm := matchUserIdAt_key uid
      ([' ', '|', ' ', 'T', 'y', 'p', 'e', ':', ' '] ++ label.data) hdig h17 h19
    have hm' : matchUserIdAt ('U' :: (['s', 'e', 'r', 'I', 'D', ':'] ++ (uid.data ++ ')' ::
        ([' ', '|', ' ', 'T', 'y', 'p', 'e', ':', ' '] ++ label.data)))) = some uid.data := hm
    rw [show userIdKey ++ (uid.data ++ ')' ::
        ([' ', '|', ' ', 'T', 'y', 'p', 'e', ':', ' '] ++ label.data))
      = 'U' :: (['s', 'e', 'r', 'I', 'D', ':'] ++ (uid.data ++ ')' ::
        ([' ', '|', ' ', 'T', 'y', 'p', 'e', ':', ' '] ++ label.data))) from rfl]
    rw [findUserId, hm']
  rw [topicUserId, hdata, findUserId_skip _ _ hcfA, hkey]
  rfl

/-- Witness for C8: a concrete tag, 17-digit id and label round-trip. -/
theorem topic_roundtrip_witness :
    (∀ c ∈ ("alice" : String).data, c ≠ ':') ∧
    (∀ c ∈ ("12345678901234567" : String).data, c.isDigit = true) ∧
    17 ≤ ("12345678901234567" : String).data.length ∧
    ("12345678901234567" : String).data.length ≤ 19 ∧
    topicUserId (mkTicketTopic "alice" "12345678901234567" "General Support")
      = some "12345678901234567" :=
  ⟨by decide, by decide, by decide, by decide,
   topic_roundtrip "alice" "12345678901234567" "General Support" (by decide) (by decide)
     (by decide) (by decide)⟩
